import Mathlib

/-!
Verification development for the blockchain chain-visualization component.

The component takes an ordered list of block records and builds a Three.js
scene: one box mesh per block placed on a rising spiral, one line connector
per adjacent pair, a render loop rotating the group, a resize handler, and
an effect-cleanup (teardown) procedure.  The definitions below are a shallow
embedding of that component; scene-graph children are modelled as a list in
insertion order, exactly as `THREE.Group.children` behaves under `add`.
-/

namespace ChainViz

/-- A block record as received by the component (`interface Block`).
`transactions` is opaque to the visualization; we model it by its contents
being irrelevant (a list of units). -/
structure Block where
  index : Int
  hash : String
  previous_hash : String
  transactions : List Unit
deriving Repr, DecidableEq, Inhabited

/-- A 3D vector, as `THREE.Vector3`. -/
@[ext]
structure Vec3 where
  x : ℝ
  y : ℝ
  z : ℝ

/-- The fields of `THREE.MeshPhongMaterial` the component sets. -/
@[ext]
structure PhongMaterial where
  color : ℕ
  transparent : Bool
  opacity : ℝ

/-- A scene-graph child of the block group: either a box mesh with its
position and material, or a line with its two buffer-geometry endpoints and
its line-material color.  A `THREE.Line` object's own `position` is never
set by the component, so it stays at the `Object3D` default `(0,0,0)`. -/
inductive Object3D where
  | mesh (position : Vec3) (material : PhongMaterial)
  | line (endpoints : Vec3 × Vec3) (color : ℕ)

/-- The `position` of a child: a mesh's position is the one assigned to it;
a line's position is the `THREE.Object3D` default `(0,0,0)` (the component
never writes it). -/
def Object3D.position : Object3D → Vec3
  | .mesh p _ => p
  | .line _ _ => ⟨0, 0, 0⟩

/-- Whether a child is a solid (box mesh) primitive. -/
def Object3D.isMesh : Object3D → Bool
  | .mesh _ _ => true
  | .line _ _ => false

/-- Whether a child is a connector (line) primitive. -/
def Object3D.isLine : Object3D → Bool
  | .mesh _ _ => false
  | .line _ _ => true

/-- Spiral placement of the mesh for array position `index`
(lines 47-52 of the source):
`angle = index * 0.5`, `radius = 3`,
`position = (cos(angle) * radius, index * 0.5, sin(angle) * radius)`. -/
noncomputable def spiralPos (index : ℕ) : Vec3 :=
  let angle : ℝ := (index : ℝ) * 0.5
  let radius : ℝ := 3
  ⟨Real.cos angle * radius, (index : ℝ) * 0.5, Real.sin angle * radius⟩

/-- The mesh material built for a block when the input list has length `n`
(lines 40-44):
`color: block.index === blocks.length - 1 ? 0x9333ea : 0x6b21a8`,
`transparent: true`, `opacity: 0.8`. -/
noncomputable def matFor (n : ℕ) (block : Block) : PhongMaterial :=
  { color := if block.index = (n : Int) - 1 then 0x9333ea else 0x6b21a8
    transparent := true
    opacity := 0.8 }

/-- Fallback object used only to totalize the `children[index - 1]` array
read; the read is always in range in every run of the builder. -/
noncomputable def dummyObj : Object3D :=
  .mesh ⟨0, 0, 0⟩ { color := 0, transparent := false, opacity := 0 }

/-- The line-material color of connectors: `0x4c1d95` (line 59). -/
def connColor : ℕ := 0x4c1d95

/-- One iteration of `blocks.forEach((block, index) => ...)`
(lines 38-71): build the mesh, position it on the spiral, add it to the
group; when `index > 0`, read `previousMesh = blockGroup.children[index-1]`
and add a line from `previousMesh.position` to `mesh.position`. -/
noncomputable def buildStep (n : ℕ) (children : List Object3D)
    (block : Block) (index : ℕ) : List Object3D :=
  let mesh : Object3D := .mesh (spiralPos index) (matFor n block)
  let children1 := children ++ [mesh]
  if 0 < index then
    let previousMesh := children1.getD (index - 1) dummyObj
    children1 ++ [.line (previousMesh.position, spiralPos index) connColor]
  else
    children1

/-- Fold of `buildStep` over the remaining blocks, carrying the group's
children and the running array index, exactly as `forEach` does. -/
noncomputable def buildAux (n : ℕ) (children : List Object3D) (index : ℕ) :
    List Block → List Object3D
  | [] => children
  | b :: bs => buildAux n (buildStep n children b index) (index + 1) bs

/-- The children of `blockGroup` after the whole `forEach` (lines 37-71),
starting from the freshly created empty group. -/
noncomputable def buildGroup (blocks : List Block) : List Object3D :=
  buildAux blocks.length [] 0 blocks

/-!  Closed form of the built children list, proved equal to `buildGroup`
below.  The child list interleaves meshes and lines in construction order:
mesh 0, then for each `i ≥ 1` mesh `i` followed by connector `i`. -/

/-- What `blockGroup.children[i - 1].position` evaluates to at step `i ≥ 1`:
for `i = 1` and even `i` it happens to be the previous-step data; for odd
`i ≥ 3` the indexed child is a line, whose position is the origin. -/
noncomputable def prevPos (i : ℕ) : Vec3 :=
  if i = 1 then spiralPos 0
  else if i % 2 = 0 then spiralPos (i / 2)
  else ⟨0, 0, 0⟩

/-- The mesh object created for array position `i`. -/
noncomputable def meshObj (n : ℕ) (blocks : List Block) (i : ℕ) : Object3D :=
  .mesh (spiralPos i) (matFor n (blocks.getD i default))

/-- The line object created at array position `i ≥ 1`. -/
noncomputable def lineObj (i : ℕ) : Object3D :=
  .line (prevPos i, spiralPos i) connColor

/-- The children appended by iteration `i` of the loop. -/
noncomputable def chunk (n : ℕ) (blocks : List Block) (i : ℕ) :
    List Object3D :=
  if 0 < i then [meshObj n blocks i, lineObj i] else [meshObj n blocks i]

/-- The group's children after the first `i` iterations, in closed form. -/
noncomputable def groupUpTo (n : ℕ) (blocks : List Block) : ℕ → List Object3D
  | 0 => []
  | i + 1 => groupUpTo n blocks i ++ chunk n blocks i

theorem length_groupUpTo (n : ℕ) (blocks : List Block) (i : ℕ) :
    (groupUpTo n blocks i).length = 2 * i - 1 := by
  induction i with
  | zero => simp [groupUpTo]
  | succ i ih =>
    simp only [groupUpTo, List.length_append, ih, chunk]
    rcases Nat.eq_zero_or_pos i with h | h
    · subst h; simp
    · rw [if_pos h]; simp; omega

/-- Position of block `i`'s mesh in the children list. -/
def meshIdx (i : ℕ) : ℕ := if i = 0 then 0 else 2 * i - 1

theorem groupUpTo_getElem_mesh (n : ℕ) (blocks : List Block) (i k : ℕ)
    (hk : k < i) :
    (groupUpTo n blocks i)[meshIdx k]? = some (meshObj n blocks k) := by
  induction i with
  | zero => omega
  | succ i ih =>
    rcases Nat.lt_or_ge k i with h | h
    · rw [groupUpTo, List.getElem?_append_left, ih h]
      have := length_groupUpTo n blocks i
      simp only [meshIdx]
      split <;> omega
    · have hki : k = i := by omega
      subst hki
      rw [groupUpTo, List.getElem?_append_right, length_groupUpTo]
      · rcases Nat.eq_zero_or_pos k with h0 | h0
        · subst h0; simp [meshIdx, chunk]
        · have : meshIdx k - (2 * k - 1) = 0 := by
            simp only [meshIdx]; split <;> omega
          rw [this, chunk, if_pos h0]
          simp
      · rw [length_groupUpTo]; simp only [meshIdx]; split <;> omega

theorem groupUpTo_getElem_line (n : ℕ) (blocks : List Block) (i k : ℕ)
    (hk0 : 0 < k) (hk : k < i) :
    (groupUpTo n blocks i)[2 * k]? = some (lineObj k) := by
  induction i with
  | zero => omega
  | succ i ih =>
    rcases Nat.lt_or_ge k i with h | h
    · rw [groupUpTo, List.getElem?_append_left, ih h]
      rw [length_groupUpTo]; omega
    · have hki : k = i := by omega
      subst hki
      rw [groupUpTo, List.getElem?_append_right, length_groupUpTo]
      · have : 2 * k - (2 * k - 1) = 1 := by omega
        rw [this, chunk, if_pos hk0]
        simp
      · rw [length_groupUpTo]; omega

theorem buildStep_groupUpTo (n : ℕ) (blocks : List Block) (i : ℕ) :
    buildStep n (groupUpTo n blocks i) (blocks.getD i default) i
      = groupUpTo n blocks (i + 1) := by
  rcases Nat.eq_zero_or_pos i with h0 | h0
  · subst h0
    simp [buildStep, groupUpTo, chunk, meshObj]
  · have hlen : (groupUpTo n blocks i).length = 2 * i - 1 :=
      length_groupUpTo n blocks i
    have hread :
        ((groupUpTo n blocks i ++ [meshObj n blocks i]).getD (i - 1)
          dummyObj).position = prevPos i := by
      rw [List.getD_eq_getElem?_getD,
        List.getElem?_append_left (by rw [hlen]; omega)]
      by_cases h1 : i = 1
      · subst h1
        have hm := groupUpTo_getElem_mesh n blocks 1 0 (by omega)
        have hidx : meshIdx 0 = 0 := by simp [meshIdx]
        rw [hidx] at hm
        simp only [show (1 : ℕ) - 1 = 0 from rfl, hm, Option.getD_some]
        simp [meshObj, Object3D.position, prevPos]
      · rcases Nat.mod_two_eq_zero_or_one i with hpar | hpar
        · set k := i / 2 with hk
          have hik : i = 2 * k := by omega
          have hk1 : 1 ≤ k := by omega
          have hm := groupUpTo_getElem_mesh n blocks i k (by omega)
          have hidx : meshIdx k = i - 1 := by
            simp only [meshIdx]; split <;> omega
          rw [hidx] at hm
          rw [hm, Option.getD_some]
          simp only [meshObj, Object3D.position, prevPos, if_neg h1,
            if_pos hpar]
        · set k := i / 2 with hk
          have hik : i = 2 * k + 1 := by omega
          have hk1 : 1 ≤ k := by omega
          have hl := groupUpTo_getElem_line n blocks i k (by omega) (by omega)
          have hidx : 2 * k = i - 1 := by omega
          rw [hidx] at hl
          rw [hl, Option.getD_some]
          simp only [lineObj, Object3D.position, prevPos, if_neg h1, hpar]
          simp
    show buildStep n (groupUpTo n blocks i) (blocks.getD i default) i = _
    rw [buildStep]
    simp only [if_pos h0]
    rw [show Object3D.mesh (spiralPos i) (matFor n (blocks.getD i default))
      = meshObj n blocks i from rfl]
    rw [hread]
    rw [groupUpTo, chunk, if_pos h0]
    simp [lineObj, List.append_assoc]

theorem buildAux_groupUpTo (n : ℕ) (blocks : List Block) :
    ∀ (bs : List Block) (i : ℕ), blocks.drop i = bs →
      buildAux n (groupUpTo n blocks i) i bs
        = groupUpTo n blocks (i + bs.length) := by
  intro bs
  induction bs with
  | nil => intro i _; simp [buildAux]
  | cons b bs ih =>
    intro i hdrop
    have hlt : i < blocks.length := by
      by_contra h
      rw [List.drop_eq_nil_of_le (by omega)] at hdrop
      cases hdrop
    have hcd := List.getElem_cons_drop blocks i hlt
    rw [hdrop] at hcd
    have hb : blocks.getD i default = b := by
      rw [List.getD_eq_getElem?_getD, List.getElem?_eq_getElem hlt,
        Option.getD_some]
      exact (List.cons.injEq _ _ _ _ ▸ hcd).1
    have hbs : blocks.drop (i + 1) = bs := (List.cons.injEq _ _ _ _ ▸ hcd).2
    rw [buildAux, ← hb, buildStep_groupUpTo, ih (i + 1) hbs]
    congr 1
    simp only [List.length_cons]
    omega

/-- The built group equals its closed form. -/
theorem buildGroup_eq (blocks : List Block) :
    buildGroup blocks = groupUpTo blocks.length blocks blocks.length := by
  have := buildAux_groupUpTo blocks.length blocks blocks 0 (by simp)
  simpa [buildGroup, groupUpTo] using this

theorem countP_mesh_groupUpTo (n : ℕ) (blocks : List Block) (i : ℕ) :
    (groupUpTo n blocks i).countP Object3D.isMesh = i := by
  induction i with
  | zero => simp [groupUpTo]
  | succ i ih =>
    rw [groupUpTo, List.countP_append, ih, chunk]
    split <;> simp [meshObj, lineObj, List.countP_cons, Object3D.isMesh]

theorem countP_line_groupUpTo (n : ℕ) (blocks : List Block) (i : ℕ) :
    (groupUpTo n blocks i).countP Object3D.isLine = i - 1 := by
  induction i with
  | zero => simp [groupUpTo]
  | succ i ih =>
    rw [groupUpTo, List.countP_append, ih, chunk]
    split
    · simp [meshObj, lineObj, List.countP_cons, Object3D.isLine]; omega
    · simp [meshObj, List.countP_cons, Object3D.isLine]; omega

/-! Lifecycle model: the `useEffect` body (bootstrap + render loop +
resize handler + cleanup), lines 18-108 of the source. -/

/-- The host `<div>` as seen through `mountRef.current`: its client
dimensions.  `mountRef.current` being `null` is modelled as
`(none : Option Surface)`. -/
structure Surface where
  clientWidth : ℕ
  clientHeight : ℕ
deriving Repr, DecidableEq

/-- Identifier of `renderer.domElement`, the canvas that bootstrap appends
to the mount node. -/
def domElement : ℕ := 0

/-- The mutable state owned by one run of the effect: renderer size,
camera aspect (and the aspect baked into the projection matrix), the block
group's children and rotation, whether an animation frame is scheduled,
whether the resize listener is registered, and the mount node's children. -/
structure EffectState where
  rendererWidth : ℕ
  rendererHeight : ℕ
  cameraAspect : ℝ
  projectionAspect : ℝ
  groupChildren : List Object3D
  groupRotationY : ℝ
  frameScheduled : Bool
  resizeListenerOn : Bool
  mountChildren : List ℕ

/-- State after lines 22-79: scene, camera (aspect `w/h`), renderer sized
to the surface and appended to the mount, lights, the block group built
from the input, camera placed.  The group's rotation starts at the
`THREE.Object3D` default `0`; no frame is scheduled yet and the resize
listener is not yet registered. -/
noncomputable def freshState (blocks : List Block) (m : Surface) :
    EffectState :=
  { rendererWidth := m.clientWidth
    rendererHeight := m.clientHeight
    cameraAspect := (m.clientWidth : ℝ) / (m.clientHeight : ℝ)
    projectionAspect := (m.clientWidth : ℝ) / (m.clientHeight : ℝ)
    groupChildren := buildGroup blocks
    groupRotationY := 0
    frameScheduled := false
    resizeListenerOn := false
    mountChildren := [domElement] }

/-- One render cycle (`animate`, lines 82-86): request the next frame and
increment the group's rotation about the vertical axis by `0.005`; the
draw call itself mutates no scene-graph state. -/
noncomputable def animateStep (st : EffectState) : EffectState :=
  { st with frameScheduled := true
            groupRotationY := st.groupRotationY + 0.005 }

/-- The whole effect body (lines 18-98): if `mountRef.current` is `null`
(`none`) return immediately with nothing created; otherwise bootstrap,
build the group, run `animate()` once (which schedules the loop), and
register the resize listener.  Note the guard tests ONLY attachment, not
the surface's dimensions. -/
noncomputable def setupEffect (blocks : List Block) (mount : Option Surface) :
    Option EffectState :=
  match mount with
  | none => none
  | some m => some { animateStep (freshState blocks m) with
                       resizeListenerOn := true }

/-- The resize handler (lines 90-97): if the mount is gone do nothing;
otherwise set the renderer size to the current client dimensions, set the
camera aspect, and update the projection matrix. -/
noncomputable def handleResize (mount : Option Surface) (st : EffectState) :
    EffectState :=
  match mount with
  | none => st
  | some m =>
    { st with rendererWidth := m.clientWidth
              rendererHeight := m.clientHeight
              cameraAspect := (m.clientWidth : ℝ) / (m.clientHeight : ℝ)
              projectionAspect := (m.clientWidth : ℝ) / (m.clientHeight : ℝ) }

/-- DOM `Node.removeChild`: removes the child if present, otherwise throws
`NotFoundError`. -/
def removeChildFrom (children : List ℕ) (c : ℕ) : Except Unit (List ℕ) :=
  if c ∈ children then .ok (children.erase c) else .error ()

/-- The effect cleanup (lines 101-107): remove the resize listener, cancel
the scheduled animation frame, and, if the mount is still attached, call
`removeChild(renderer.domElement)` on it — which throws when the canvas is
no longer one of the mount's children. -/
noncomputable def cleanup (mountPresent : Bool) (st : EffectState) :
    Except Unit EffectState :=
  let st1 := { st with resizeListenerOn := false, frameScheduled := false }
  if mountPresent then
    match removeChildFrom st1.mountChildren domElement with
    | .ok cs => .ok { st1 with mountChildren := cs }
    | .error e => .error e
  else
    .ok st1

/-! Concrete inputs used by witnesses and counterexamples. -/

/-- A well-formed 3-block chain: each block's `index` field equals its
array position. -/
def demoBlocks : List Block :=
  [⟨0, "h0", "g", []⟩, ⟨1, "h1", "h0", []⟩, ⟨2, "h2", "h1", []⟩]

/-- A well-formed 4-block chain. -/
def demoBlocks4 : List Block :=
  [⟨0, "h0", "g", []⟩, ⟨1, "h1", "h0", []⟩, ⟨2, "h2", "h1", []⟩,
   ⟨3, "h3", "h2", []⟩]

/-- Whether a child is a mesh carrying the brighter highlight color
`0x9333ea`. -/
def Object3D.isHighlighted : Object3D → Bool
  | .mesh _ m => m.color == 0x9333ea
  | .line _ _ => false

/-- Claim C1: for every input sequence of `N ≥ 0` blocks, the built group
contains exactly `N` solid (mesh) primitives and exactly `max(0, N-1)`
connector (line) primitives; in particular `N = 0` yields an empty group
(total child count `N + (N-1)` is `0`) and `N = 1` yields one mesh and
zero connectors. -/
theorem claim_C1 (blocks : List Block) :
    (buildGroup blocks).countP Object3D.isMesh = blocks.length ∧
    (buildGroup blocks).countP Object3D.isLine = blocks.length - 1 ∧
    (buildGroup blocks).length = blocks.length + (blocks.length - 1) := by
  rw [buildGroup_eq]
  refine ⟨countP_mesh_groupUpTo _ _ _, countP_line_groupUpTo _ _ _, ?_⟩
  rw [length_groupUpTo]
  omega

/-- Claim C3: the mesh for the block at array position `i` is placed at
exactly `(3 * cos(i * 0.5), i * 0.5, 3 * sin(i * 0.5))` (the code computes
`cos(angle) * radius` with `radius = 3`, which is the same value). -/
theorem claim_C3 (blocks : List Block) (i : ℕ) (h : i < blocks.length) :
    (buildGroup blocks)[meshIdx i]? =
      some (.mesh
        ⟨3 * Real.cos ((i : ℝ) * 0.5), (i : ℝ) * 0.5,
          3 * Real.sin ((i : ℝ) * 0.5)⟩
        (matFor blocks.length (blocks.getD i default))) := by
  rw [buildGroup_eq, groupUpTo_getElem_mesh blocks.length blocks
    blocks.length i h, meshObj]
  have hpos : spiralPos i =
      ⟨3 * Real.cos ((i : ℝ) * 0.5), (i : ℝ) * 0.5,
        3 * Real.sin ((i : ℝ) * 0.5)⟩ := by
    simp only [spiralPos]
    ext <;> simp <;> ring
  rw [hpos]

/-- Witness for C3 at the concrete scenario of the spec: in a 3-block
input, block 1's mesh sits at `(3·cos(0.5), 0.5, 3·sin(0.5))`. -/
theorem claim_C3_witness :
    1 < demoBlocks.length ∧
    (buildGroup demoBlocks)[meshIdx 1]? =
      some (.mesh
        ⟨3 * Real.cos (((1 : ℕ) : ℝ) * 0.5), ((1 : ℕ) : ℝ) * 0.5,
          3 * Real.sin (((1 : ℕ) : ℝ) * 0.5)⟩
        (matFor demoBlocks.length (demoBlocks.getD 1 default))) :=
  ⟨by simp [demoBlocks], claim_C3 demoBlocks 1 (by simp [demoBlocks])⟩

/-- Claim C4: the mesh for the block at array position `i` carries the
brighter color `0x9333ea` iff that block's `index` field equals `N - 1`
(comparison on the record field, not the array position), carries the
darker `0x6b21a8` otherwise, and is semi-transparent with opacity `0.8`. -/
theorem claim_C4 (blocks : List Block) (i : ℕ) (h : i < blocks.length) :
    ∃ p m, (buildGroup blocks)[meshIdx i]? = some (.mesh p m) ∧
      (m.color = 0x9333ea ↔
        (blocks.getD i default).index = (blocks.length : Int) - 1) ∧
      (m.color = 0x6b21a8 ↔
        ¬ (blocks.getD i default).index = (blocks.length : Int) - 1) ∧
      m.transparent = true ∧ m.opacity = 0.8 := by
  rw [buildGroup_eq, groupUpTo_getElem_mesh blocks.length blocks
    blocks.length i h, meshObj]
  refine ⟨spiralPos i, matFor blocks.length (blocks.getD i default),
    rfl, ?_, ?_, rfl, rfl⟩ <;>
    by_cases hc : (blocks.getD i default).index = (blocks.length : Int) - 1 <;>
      simp [matFor, hc]

/-- Witness for C4 in the 3-block scenario: block 2 (with `index = 2 =
N - 1`) is the highlighted one. -/
theorem claim_C4_witness :
    2 < demoBlocks.length ∧
    ∃ p m, (buildGroup demoBlocks)[meshIdx 2]? = some (.mesh p m) ∧
      (m.color = 0x9333ea ↔
        (demoBlocks.getD 2 default).index = (demoBlocks.length : Int) - 1) ∧
      (m.color = 0x6b21a8 ↔
        ¬ (demoBlocks.getD 2 default).index = (demoBlocks.length : Int) - 1) ∧
      m.transparent = true ∧ m.opacity = 0.8 :=
  ⟨by simp [demoBlocks], claim_C4 demoBlocks 2 (by simp [demoBlocks])⟩

/-- Claim C10: the children are laid down in interleaved construction
order — mesh 0 first, then for each `i ≥ 1` mesh `i` at child position
`2i - 1` immediately followed by connector `i` at the even position `2i` —
so the group holds exactly `2N - 1` children when `N ≥ 1` and `0` when
`N = 0`. -/
theorem claim_C10 (blocks : List Block) :
    (buildGroup blocks).length = 2 * blocks.length - 1 ∧
    (0 < blocks.length →
      (buildGroup blocks)[0]? = some (meshObj blocks.length blocks 0)) ∧
    ∀ i, 0 < i → i < blocks.length →
      (buildGroup blocks)[2 * i - 1]? =
        some (meshObj blocks.length blocks i) ∧
      ∃ e c, (buildGroup blocks)[2 * i]? = some (.line e c) := by
  rw [buildGroup_eq]
  refine ⟨length_groupUpTo _ _ _, ?_, ?_⟩
  · intro h
    have := groupUpTo_getElem_mesh blocks.length blocks blocks.length 0 h
    simpa [meshIdx] using this
  · intro i hi0 hin
    constructor
    · have := groupUpTo_getElem_mesh blocks.length blocks blocks.length i hin
      have hidx : meshIdx i = 2 * i - 1 := by
        simp only [meshIdx]; split <;> omega
      rwa [hidx] at this
    · exact ⟨(prevPos i, spiralPos i), connColor,
        by rw [groupUpTo_getElem_line blocks.length blocks blocks.length i
          hi0 hin, lineObj]⟩

/-- Witness for C10 on the 3-block input: 5 children; child 1 is block 1's
mesh and child 2 is a connector line. -/
theorem claim_C10_witness :
    (buildGroup demoBlocks).length = 2 * demoBlocks.length - 1 ∧
    (buildGroup demoBlocks)[2 * 1 - 1]? =
      some (meshObj demoBlocks.length demoBlocks 1) ∧
    ∃ e c, (buildGroup demoBlocks)[2 * 1]? = some (.line e c) :=
  ⟨(claim_C10 demoBlocks).1,
   ((claim_C10 demoBlocks).2.2 1 (by omega) (by simp [demoBlocks])).1,
   ((claim_C10 demoBlocks).2.2 1 (by omega) (by simp [demoBlocks])).2⟩

/-- Claim C2, evaluated at the failing input (a 4-block chain): the third
connector (child `2·3 = 6`) does NOT start at block 2's realized mesh
position.  `blockGroup.children[index - 1]` indexes the interleaved
mesh/line list, so at `index = 3` the "previousMesh" is really connector
line 1, whose `position` is the `Object3D` default origin; the connector
therefore starts at `(0,0,0)`, which differs from block 2's placed
position `(3cos(1), 1, 3sin(1))`. -/
theorem claim_C2_bug :
    (buildGroup demoBlocks4)[2 * 3]? =
      some (.line (⟨0, 0, 0⟩, spiralPos 3) connColor) ∧
    (⟨0, 0, 0⟩ : Vec3) ≠ spiralPos 2 := by
  constructor
  · have h := groupUpTo_getElem_line demoBlocks4.length demoBlocks4
      demoBlocks4.length 3 (by omega) (by simp [demoBlocks4])
    rw [buildGroup_eq, h, lineObj]
    have hp : prevPos 3 = ⟨0, 0, 0⟩ := by norm_num [prevPos]
    rw [hp]
  · intro h
    have hy := congrArg Vec3.y h
    simp only [spiralPos] at hy
    norm_num at hy

/-- A single block whose `index` field (5) differs from `N - 1 = 0`. -/
def oddBlock : Block := ⟨5, "x", "g", []⟩

/-- Counterexample to claim C5: a sequence with one block (`N = 1`) whose
`index` field is 5 produces ZERO highlighted meshes, not exactly one. -/
theorem claim_C5_counterexample :
    ([oddBlock] : List Block).length = 1 ∧
    (buildGroup [oddBlock]).countP Object3D.isHighlighted = 0 := by
  refine ⟨rfl, ?_⟩
  rw [buildGroup_eq]
  show (groupUpTo 1 [oddBlock] 1).countP _ = 0
  simp [groupUpTo, chunk, meshObj, matFor, oddBlock, Object3D.isHighlighted]

theorem countHigh_buildStep (n : ℕ) (c : List Object3D) (b : Block)
    (i : ℕ) :
    (buildStep n c b i).countP Object3D.isHighlighted =
      c.countP Object3D.isHighlighted +
        (if b.index = (n : Int) - 1 then 1 else 0) := by
  rw [buildStep]
  by_cases hb : b.index = (n : Int) - 1 <;>
    split <;>
      simp [List.countP_append, List.countP_cons, Object3D.isHighlighted,
        matFor, hb]

theorem countHigh_buildAux (n : ℕ) :
    ∀ (bs : List Block) (c : List Object3D) (i : ℕ),
      (buildAux n c i bs).countP Object3D.isHighlighted =
        c.countP Object3D.isHighlighted +
          bs.countP (fun b => b.index == (n : Int) - 1) := by
  intro bs
  induction bs with
  | nil => intro c i; simp [buildAux]
  | cons b bs ih =>
    intro c i
    rw [buildAux, ih, countHigh_buildStep, List.countP_cons]
    by_cases hb : b.index = (n : Int) - 1 <;>
      (simp [hb]; try omega)

/-- Claim C5, amended: the highlighted meshes are exactly those whose
block's `index` field equals `N - 1`, so their number equals the number of
such blocks — it can be zero or several for arbitrary `index` values; when
every block's `index` equals its array position (a well-formed chain),
exactly one mesh is highlighted for `N ≥ 1`, and zero for `N = 0`. -/
theorem claim_C5_amended (blocks : List Block) :
    (buildGroup blocks).countP Object3D.isHighlighted =
      blocks.countP (fun b => b.index == (blocks.length : Int) - 1) ∧
    (blocks.map Block.index =
        (List.range blocks.length).map (Nat.cast : ℕ → Int) →
      (1 ≤ blocks.length →
        (buildGroup blocks).countP Object3D.isHighlighted = 1) ∧
      (blocks.length = 0 →
        (buildGroup blocks).countP Object3D.isHighlighted = 0)) := by
  have hcount : (buildGroup blocks).countP Object3D.isHighlighted =
      blocks.countP (fun b => b.index == (blocks.length : Int) - 1) := by
    rw [buildGroup]
    simpa using countHigh_buildAux blocks.length blocks [] 0
  refine ⟨hcount, fun hmap => ⟨fun hN => ?_, fun h0 => ?_⟩⟩
  · rw [hcount]
    have hmapc : blocks.countP
        (fun b => b.index == (blocks.length : Int) - 1) =
        (blocks.map Block.index).countP
          (fun j => j == (blocks.length : Int) - 1) := by
      rw [List.countP_map]; rfl
    rw [hmapc, hmap, List.countP_map]
    have hcongr : (List.range blocks.length).countP
        ((fun j => j == (blocks.length : Int) - 1) ∘ (Nat.cast : ℕ → Int)) =
        (List.range blocks.length).countP
          (fun k => k == blocks.length - 1) := by
      refine List.countP_congr fun k _ => ?_
      simp only [Function.comp_apply, beq_iff_eq]
      omega
    rw [hcongr]
    show (List.range blocks.length).count (blocks.length - 1) = 1
    exact List.count_eq_one_of_mem (List.nodup_range _)
      (List.mem_range.mpr (by omega))
  · rw [hcount, List.eq_nil_of_length_eq_zero h0]
    rfl

/-- Witness for the amended C5 on the well-formed 3-block chain: exactly
one mesh is highlighted. -/
theorem claim_C5_witness :
    demoBlocks.map Block.index =
      (List.range demoBlocks.length).map (Nat.cast : ℕ → Int) ∧
    (buildGroup demoBlocks).countP Object3D.isHighlighted = 1 :=
  ⟨rfl, ((claim_C5_amended demoBlocks).2 rfl).1 (by simp [demoBlocks])⟩

/-- Counterexample to claim C6: with an attached host surface of zero
width and zero height, bootstrap is NOT skipped — the effect still creates
its state, schedules the render loop, and appends the canvas; the guard
tests only attachment, never dimensions. -/
theorem claim_C6_counterexample :
    ∃ st, setupEffect [] (some ⟨0, 0⟩) = some st ∧
      st.frameScheduled = true ∧ st.mountChildren = [domElement] :=
  ⟨_, rfl, rfl, rfl⟩

/-- Claim C6, amended: bootstrap is skipped (nothing created, no error)
iff the host surface is not attached; an attached surface always
bootstraps, whatever its dimensions. -/
theorem claim_C6_amended (blocks : List Block) (mount : Option Surface) :
    (setupEffect blocks mount).isSome = mount.isSome ∧
    setupEffect blocks none = none := by
  cases mount <;> exact ⟨rfl, rfl⟩

/-- Claim C7: the resize handler changes only the render target
dimensions and the camera aspect ratio (with a projection-matrix update);
it never changes the group's children (hence no primitive count, mesh
placement, or material), the group's rotation, the scheduled frame, the
listener registration, or the mount's children. -/
theorem claim_C7 (mount : Option Surface) (st : EffectState) :
    (handleResize mount st).groupChildren = st.groupChildren ∧
    (handleResize mount st).groupRotationY = st.groupRotationY ∧
    (handleResize mount st).frameScheduled = st.frameScheduled ∧
    (handleResize mount st).resizeListenerOn = st.resizeListenerOn ∧
    (handleResize mount st).mountChildren = st.mountChildren ∧
    ∀ m, mount = some m →
      (handleResize mount st).rendererWidth = m.clientWidth ∧
      (handleResize mount st).rendererHeight = m.clientHeight ∧
      (handleResize mount st).cameraAspect =
        (m.clientWidth : ℝ) / (m.clientHeight : ℝ) ∧
      (handleResize mount st).projectionAspect =
        (handleResize mount st).cameraAspect := by
  cases mount with
  | none =>
    refine ⟨rfl, rfl, rfl, rfl, rfl, ?_⟩
    intro m hm
    cases hm
  | some m =>
    refine ⟨rfl, rfl, rfl, rfl, rfl, ?_⟩
    intro m' hm'
    cases hm'
    exact ⟨rfl, rfl, rfl, rfl⟩

/-- A concrete mounted-instance state used by lifecycle witnesses. -/
noncomputable def demoState : EffectState :=
  { rendererWidth := 4, rendererHeight := 3, cameraAspect := 1,
    projectionAspect := 1, groupChildren := [], groupRotationY := 0,
    frameScheduled := true, resizeListenerOn := true,
    mountChildren := [domElement] }

/-- Witness for C7 at a concrete resize to an 8x6 surface. -/
theorem claim_C7_witness :
    (handleResize (some ⟨8, 6⟩) demoState).groupChildren =
      demoState.groupChildren ∧
    (handleResize (some ⟨8, 6⟩) demoState).rendererWidth = 8 :=
  ⟨(claim_C7 (some ⟨8, 6⟩) demoState).1,
   ((claim_C7 (some ⟨8, 6⟩) demoState).2.2.2.2.2 ⟨8, 6⟩ rfl).1⟩

/-- A concrete attached surface. -/
def demoSurface : Surface := ⟨400, 300⟩

/-- State of a mounted instance right after the effect ran on
`demoBlocks`. -/
noncomputable def afterSetup : EffectState :=
  { animateStep (freshState demoBlocks demoSurface) with
      resizeListenerOn := true }

/-- State after one successful teardown of `afterSetup`. -/
noncomputable def afterCleanup : EffectState :=
  { afterSetup with
      resizeListenerOn := false
      frameScheduled := false
      mountChildren := [] }

/-- Counterexample to claim C8: teardown is NOT idempotent.  On a mounted
instance whose host surface is still attached, the first cleanup succeeds
(and empties the mount), but the second invocation faults: it calls
`removeChild(renderer.domElement)` on a mount that no longer contains the
canvas, which throws `NotFoundError`. -/
theorem claim_C8_counterexample :
    setupEffect demoBlocks (some demoSurface) = some afterSetup ∧
    cleanup true afterSetup = Except.ok afterCleanup ∧
    cleanup true afterCleanup = Except.error () := by
  refine ⟨rfl, ?_, ?_⟩
  · simp [cleanup, removeChildFrom, afterSetup, afterCleanup, animateStep,
      freshState, demoSurface, domElement]
  · simp [cleanup, removeChildFrom, afterSetup, afterCleanup, animateStep,
      freshState, demoSurface, domElement]

/-- Claim C8, amended: the first teardown of a mounted instance never
faults and leaves no render cycle scheduled and no listener registered; a
second teardown faults if and only if the host surface is still attached
(it re-detaches the already-detached canvas); with the host detached the
second teardown is fault-free and still leaves no render cycle
scheduled. -/
theorem claim_C8_amended (st : EffectState)
    (h : st.mountChildren = [domElement]) :
    ∃ st1, cleanup true st = Except.ok st1 ∧
      st1.frameScheduled = false ∧ st1.resizeListenerOn = false ∧
      cleanup true st1 = Except.error () ∧
      ∃ st2, cleanup false st1 = Except.ok st2 ∧
        st2.frameScheduled = false := by
  refine ⟨{ st with
              resizeListenerOn := false
              frameScheduled := false
              mountChildren := [] }, ?_, rfl, rfl, ?_,
          { st with
              resizeListenerOn := false
              frameScheduled := false
              mountChildren := [] }, ?_, rfl⟩
  · simp [cleanup, removeChildFrom, h]
  · simp [cleanup, removeChildFrom]
  · simp [cleanup, removeChildFrom]

/-- Witness for the amended C8 on the concrete mounted instance. -/
theorem claim_C8_witness :
    afterSetup.mountChildren = [domElement] ∧
    ∃ st1, cleanup true afterSetup = Except.ok st1 ∧
      st1.frameScheduled = false ∧ st1.resizeListenerOn = false ∧
      cleanup true st1 = Except.error () ∧
      ∃ st2, cleanup false st1 = Except.ok st2 ∧
        st2.frameScheduled = false :=
  ⟨rfl, claim_C8_amended afterSetup rfl⟩

theorem animateStep_iter (st : EffectState) (k : ℕ) :
    (animateStep^[k] st).groupRotationY =
      st.groupRotationY + (k : ℝ) * 0.005 ∧
    (animateStep^[k] st).groupChildren = st.groupChildren ∧
    (animateStep^[k] st).rendererWidth = st.rendererWidth ∧
    (animateStep^[k] st).rendererHeight = st.rendererHeight ∧
    (animateStep^[k] st).cameraAspect = st.cameraAspect ∧
    (animateStep^[k] st).projectionAspect = st.projectionAspect ∧
    (animateStep^[k] st).mountChildren = st.mountChildren := by
  induction k with
  | zero => simp
  | succ k ih =>
    obtain ⟨h1, h2, h3, h4, h5, h6, h7⟩ := ih
    rw [Function.iterate_succ_apply']
    refine ⟨?_, ?_, ?_, ?_, ?_, ?_, ?_⟩ <;>
      simp [animateStep, h1, h2, h3, h4, h5, h6, h7]
    ring

/-- Claim C9: starting from a freshly built scene (group rotation `0`),
after `k` render cycles the group's rotation about the vertical axis is
exactly `k * 0.005` radians, and the rotation is the only scene-graph
state the loop mutates: the group's child list (hence every mesh position
and material) is still exactly the built group, and the renderer, camera,
and mount are untouched. -/
theorem claim_C9 (blocks : List Block) (m : Surface) (k : ℕ) :
    (animateStep^[k] (freshState blocks m)).groupRotationY =
      (k : ℝ) * 0.005 ∧
    (animateStep^[k] (freshState blocks m)).groupChildren =
      buildGroup blocks ∧
    (animateStep^[k] (freshState blocks m)).rendererWidth = m.clientWidth ∧
    (animateStep^[k] (freshState blocks m)).rendererHeight =
      m.clientHeight ∧
    (animateStep^[k] (freshState blocks m)).mountChildren = [domElement] := by
  obtain ⟨h1, h2, h3, h4, _, _, h7⟩ :=
    animateStep_iter (freshState blocks m) k
  rw [h1, h2, h3, h4, h7]
  simp [freshState]

end ChainViz
